import Mathlib

/-!
Verification of the anomaly-detector core of `mnv-container-detector`.

The development shallowly embeds the Python sources under
`service_detector/detector/`:

* `detector.py` (`AnomalyDetector`): anomaly aggregation, alert creation,
  description generation;
* `detectors/telegram_repost.py` (`TelegramRepostAnomalyDetector`);
* `detectors/telegram_metrics.py` (`TelegramMetricAnomalyDetector`);
* `utils/telegram_prediction_cache.py` (`TelegramPredictionCache`).

Python floats are modelled as rationals (`ℚ`) wherever the code only
compares, divides and sums them, and as reals (`ℝ`) where `np.exp` appears.
Python `dict`s are modelled as association lists with replace-on-insert,
`None`-able values as `Option`, and code that can raise (`ZeroDivisionError`)
as `Except`-valued functions.  External collaborators (the relational store,
the Redis country hash, the Kibana link generator, `uuid4`, `strptime`)
are passed in as explicit function/value parameters, following the
"external collaborator" boundary the repository draws around them.
`cachetools.TTLCache` is modelled as a plain mapping: TTL/size eviction
only removes entries, and the properties proved here are stated for
arbitrary cache contents (under explicitly stated invariants), so they
hold for every reachable cache state.
-/

namespace Detector

/-- A Python value stored in `Anomaly.metric_value`: the detectors in this
repository produce numbers, and the description generator also handles
strings (`isinstance(anomaly.metric_value, str)`). -/
inductive MetricValue where
  | num (q : ℚ)
  | str (s : String)
deriving DecidableEq

/-- Embeds `types/anomaly.py` `Anomaly`.  `expected_value` is numeric for
every anomaly the repository constructs.  The `_weight` field (default 100)
is carried verbatim; the code never consumes it. -/
structure Anomaly where
  metric_name : String
  metric_value : MetricValue
  expected_value : ℚ
  score : ℚ
  weight : ℤ
deriving DecidableEq

/-- The fields of the message dict that `AnomalyDetector` reads:
`metadata.id`, `metadata.method`, `payload.source`, `payload.delta`.
`delta` is `none` when the key is absent (`payload.get('delta')`). -/
structure Message where
  id : String
  method : String
  source : String
  delta : Option ℤ

/-- `message['payload'].get('delta')` used under Python truthiness:
an absent key or a zero value both behave as "no delta". -/
def Message.deltaTruthy (m : Message) : Option ℤ :=
  match m.delta with
  | some d => if d = 0 then none else some d
  | none => none

/-- Descending-score comparison used by
`sorted(anomalies, key=lambda x: x.score, reverse=True)`. -/
def scoreGE (a b : Anomaly) : Prop := b.score ≤ a.score

instance : DecidableRel scoreGE :=
  fun a b => decidable_of_iff (b.score ≤ a.score) Iff.rfl

instance : IsTotal Anomaly scoreGE :=
  ⟨fun a b => le_total b.score a.score⟩

instance : IsTrans Anomaly scoreGE :=
  ⟨fun _ _ _ hab hbc => le_trans hbc hab⟩

/-- Embeds `sorted(anomalies, key=lambda x: x.score, reverse=True)` from
`AnomalyDetector._create_alert`: the stable sort descending by score. -/
def sortAnomaliesDesc (l : List Anomaly) : List Anomaly :=
  List.insertionSort scoreGE l

/-- Embeds `AnomalyDetector._calculate_total_anomaly_score`:
`sum([anomaly.score for anomaly in anomalies])`. -/
def calculateTotalAnomalyScore (anomalies : List Anomaly) : ℚ :=
  (anomalies.map Anomaly.score).sum

/-- `AnomalyDetector._anomaly_colors_by_score['red']`. -/
def anomalyColorRed : ℚ := 3 / 4

/-- `AnomalyDetector._anomaly_colors_by_score['yellow']`. -/
def anomalyColorYellow : ℚ := 1 / 4

/-- `AnomalyDetector._anomaly_colors_by_score['green']`. -/
def anomalyColorGreen : ℚ := 0

/-- The severity-choosing `if`/`elif` chain of
`AnomalyDetector._generate_description`. -/
def severityFor (total_score : ℚ) : String :=
  if total_score > anomalyColorRed then "Critical anomaly"
  else if total_score > anomalyColorYellow then "Major anomaly"
  else if total_score > anomalyColorGreen then "Minor anomaly"
  else "Warning anomaly"

/-- Left-pad a string with the digit zero up to length `n`, as Python
zero-padded fixed-point formatting does for the fractional part. -/
def padZeros (n : ℕ) (s : String) : String :=
  String.mk (List.replicate (n - s.length) (Char.ofNat 48)) ++ s

/-- Round a rational to the nearest integer, ties to even: the rounding of
Python `format(x, '.Nf')` applied to the scaled value. -/
def roundHalfEven (q : ℚ) : ℤ :=
  if q - Int.floor q < 1 / 2 then Int.floor q
  else if (1 : ℚ) / 2 < q - Int.floor q then Int.floor q + 1
  else if 2 ∣ Int.floor q then Int.floor q
  else Int.floor q + 1

/-- Embeds Python fixed-point formatting `f"{q:.{prec}f}"` on the rational
standing in for the float. -/
def formatFixed (prec : ℕ) (q : ℚ) : String :=
  let scaled := roundHalfEven (q * (10 : ℚ) ^ prec)
  let sign := if scaled < 0 then "-" else ""
  let a := scaled.natAbs
  if prec = 0 then sign ++ toString (a / 10 ^ prec)
  else sign ++ toString (a / 10 ^ prec) ++ "." ++ padZeros prec (toString (a % 10 ^ prec))

/-- The per-anomaly rendering of `AnomalyDetector._generate_description`:
numeric metric values render as `"<name> (<expected:.2f>x expected)"` when
the expected value is zero and `"<name> (<value/expected:.1f>x higher)"`
otherwise; string metric values render as `"<name> is <value>"`. -/
def descriptionPoint (a : Anomaly) : String :=
  match a.metric_value with
  | MetricValue.num v =>
    if a.expected_value = 0 then
      a.metric_name ++ " (" ++ formatFixed 2 a.expected_value ++ "x expected)"
    else
      a.metric_name ++ " (" ++ formatFixed 1 (v / a.expected_value) ++ "x higher)"
  | MetricValue.str s => a.metric_name ++ " is " ++ s

/-- The joining step of `_generate_description`: a single point stands
alone, otherwise `', '.join(points[:-1]) + f' and {points[-1]}'`. -/
def joinPoints (points : List String) : String :=
  match points with
  | [p] => p
  | _ => String.intercalate ", " points.dropLast ++ " and " ++ (points.getLast?.getD "")

/-- Embeds `AnomalyDetector._generate_description`.  The message fields it
reads (`payload.source`, truthy `payload.get('delta')`) are passed
directly. -/
def generateDescription (anomalies : List Anomaly) (source : String)
    (delta : Option ℤ) (total_score : ℚ) : String :=
  let additional_info := delta.map (fun d => toString d ++ " seconds after publication")
  let severity := severityFor total_score
  let body := joinPoints (anomalies.map descriptionPoint)
  let complete_text := severity ++ " in " ++ body ++ " found for " ++ source
  match additional_info with
  | some info => complete_text ++ " " ++ info
  | none => complete_text

/-- Embeds `AnomalyDetector._domain.get(method, 'Unknown')`. -/
def domainFor (method : String) : String :=
  if method = "TelegramEngagementExecutor" then "Telegram"
  else if method = "TelegramListener" then "Telegram"
  else if method = "opoint" then "Web"
  else "Unknown"

/-- The fields of `types/alert.py` `Alert` that the aggregation logic
computes.  `date` (parsed by `strptime`) is omitted; the Kibana `url` and
the `uuid4` id are passed in as collaborator-supplied values. -/
structure Alert where
  id : String
  score : ℚ
  domain : String
  source : String
  description : String
  url : Option String
  field_name : String
  anomaly_value : MetricValue
  expected_value : ℚ
  all_anomalies : List Anomaly

/-- Embeds `AnomalyDetector._create_alert`.  `alertId` stands for
`str(uuid4())` and `kibanaUrl` for the Kibana link-generator result, both
external to the aggregation logic.  The source indexes `anomalies[0]` of
the sorted list, which would raise on an empty list; that impossible case
(the caller guards on non-emptiness) is modelled as `none`.  The source
stores `anomaly.to_dict()` (a field-wise stringification that preserves
order) in `_all_anomalies`; the model keeps the records themselves. -/
def createAlert (alertId : String) (kibanaUrl : Option String)
    (msg : Message) (anomalies : List Anomaly) : Option Alert :=
  let sortedAnomalies := sortAnomaliesDesc anomalies
  let total_score := calculateTotalAnomalyScore sortedAnomalies
  match sortedAnomalies with
  | [] => none
  | top :: _ =>
    some
      { id := alertId
        score := total_score
        domain := domainFor msg.method
        source := msg.source
        description := generateDescription sortedAnomalies msg.source msg.deltaTruthy total_score
        url := kibanaUrl
        field_name := top.metric_name
        anomaly_value := top.metric_value
        expected_value := top.expected_value
        all_anomalies := sortedAnomalies }

/-- Embeds `AnomalyDetector._run_detectors`: each detector appends its
anomalies to the shared accumulator, modelled as each detector function
returning the list it appends. -/
def runDetectors (detectors : List (Message → List Anomaly)) (msg : Message) : List Anomaly :=
  detectors.foldl (fun acc d => acc ++ d msg) []

/-- Embeds `AnomalyDetector.run`: run the detectors, return `None` when no
anomaly was collected, otherwise build the alert. -/
def runAggregator (alertId : String) (kibanaUrl : Option String)
    (detectors : List (Message → List Anomaly)) (msg : Message) : Option Alert :=
  let anomalies := runDetectors detectors msg
  if anomalies.length = 0 then none
  else createAlert alertId kibanaUrl msg anomalies

/-- Predicate selecting the anomalies of one given score, used to state
stability of the descending sort. -/
def scoreFilter (s : ℚ) : Anomaly → Bool := fun a => decide (a.score = s)

end Detector

namespace Repost

open Detector

/-- The two payload fields `TelegramRepostAnomalyDetector` reads. -/
structure RepostArticle where
  country : Option String
  forward_from_chat_id : Option ℤ

/-- Python truthiness of an optional string field (`article.get(key)`):
present and non-empty. -/
def truthyStr : Option String → Bool
  | some s => decide (s ≠ "")
  | none => false

/-- Python truthiness of an optional integer field: present and nonzero. -/
def truthyInt : Option ℤ → Bool
  | some n => decide (n ≠ 0)
  | none => false

/-- Embeds `TelegramRepostAnomalyDetector._check_article_fields`:
`all(article.get(key) for key in ('country', 'forward_from_chat_id'))`. -/
def checkArticleFieldsRepost (a : RepostArticle) : Bool :=
  truthyStr a.country && truthyInt a.forward_from_chat_id

/-- Embeds `TelegramRepostAnomalyDetector._check_original_chat_country`.
`hget` models `redis.hget('tg_countries', chat_id)` returning the stored
country code, `none` when the field is missing.  The sentinel test
`x in ('xx', None)` and the final `return not (original_country !=
forward_country)` are transcribed literally. -/
def checkOriginalChatCountry (hget : ℤ → Option String) (a : RepostArticle) : Bool :=
  let original_country := a.country.getD ""
  let forward_country := hget (a.forward_from_chat_id.getD 0)
  if original_country = "xx" ∨ forward_country = some "xx" ∨ forward_country = none then
    false
  else
    !(decide (some original_country ≠ forward_country))

/-- Embeds `TelegramRepostAnomalyDetector.run`: the anomalies the call
appends to the accumulator. -/
def runRepostDetector (hget : ℤ → Option String) (a : RepostArticle) : List Anomaly :=
  if ¬ checkArticleFieldsRepost a then []
  else if checkOriginalChatCountry hget a then
    [⟨"forward", MetricValue.num 1, 0, 1, 100⟩]
  else []

end Repost

namespace Metrics

open Repost (truthyStr truthyInt)

/-- The payload fields `TelegramMetricAnomalyDetector` reads.  Numeric
metrics are rationals standing in for Python numbers. -/
structure MetricArticle where
  chat_id : Option ℤ
  delta : Option ℤ
  loading_date : Option String
  views : Option ℚ
  forwards : Option ℚ
  reaction_count : Option ℚ

/-- Python truthiness of an optional numeric field: present and nonzero. -/
def truthyRat : Option ℚ → Bool
  | some q => decide (q ≠ 0)
  | none => false

/-- Embeds `TelegramMetricAnomalyDetector._check_article_fields`:
`all(article.get(key) for key in ('chat_id', 'delta', 'loading_date',
'views', 'forwards', 'reaction_count'))`. -/
def checkArticleFieldsMetric (a : MetricArticle) : Bool :=
  truthyInt a.chat_id && truthyInt a.delta && truthyStr a.loading_date &&
    truthyRat a.views && truthyRat a.forwards && truthyRat a.reaction_count

/-- The columns of one `metrics_telegram_coefficient` row as the detector
reads them.  `minimal_views_threshold` is optional: the code reads it with
`coefficients.get('minimal_views_threshold', 0)`. -/
structure Coefficients where
  forwards_by_views : ℚ
  reaction_count_by_views : ℚ
  minimal_views_threshold : Option ℚ

/-- Embeds `TelegramMetricAnomalyDetector._check_article_minimal_threshold`.
`getCoefficients` is the prediction cache collaborator
(`cache.get_coefficients(chat_id)`). -/
def checkArticleMinimalThreshold (getCoefficients : ℤ → Option Coefficients)
    (a : MetricArticle) : Bool :=
  match getCoefficients (a.chat_id.getD 0) with
  | none => false
  | some c => decide (¬ (a.views.getD 0 < c.minimal_views_threshold.getD 0))

/-- Python division: raises `ZeroDivisionError` on a zero denominator. -/
def pyDiv (a b : ℚ) : Except String ℚ :=
  if b = 0 then Except.error "ZeroDivisionError" else Except.ok (a / b)

/-- An anomaly produced by the metric detector.  The score involves
`np.exp`, so it lives in `ℝ`. -/
structure MetricAnomaly where
  metric_name : String
  metric_value : ℚ
  expected_value : ℚ
  score : ℝ
  weight : ℤ

/-- Embeds `TelegramMetricAnomalyDetector._score_static_metrics`:
`deviation = metric_value / expected_value;
return 1 / (1 + np.exp((-deviation + expected_value) * 10))`. -/
noncomputable def scoreStaticMetrics (metric_value expected_value : ℚ) :
    Except String ℝ := do
  let deviation ← pyDiv metric_value expected_value
  pure (1 / (1 + Real.exp ((-(deviation : ℝ) + (expected_value : ℝ)) * 10)))

/-- Embeds `TelegramMetricAnomalyDetector._check_static_metrics`: the
anomalies the call appends, or the `ZeroDivisionError` it raises. -/
noncomputable def checkStaticMetrics (getCoefficients : ℤ → Option Coefficients)
    (a : MetricArticle) : Except String (List MetricAnomaly) :=
  match getCoefficients (a.chat_id.getD 0) with
  | none => Except.ok []
  | some c => do
    let forwards_by_views ← pyDiv (a.forwards.getD 0) (a.views.getD 0)
    let reaction_count_by_views ← pyDiv (a.reaction_count.getD 0) (a.views.getD 0)
    let l1 ←
      if forwards_by_views > c.forwards_by_views then do
        let s ← scoreStaticMetrics forwards_by_views c.forwards_by_views
        pure [MetricAnomaly.mk "forwards_by_views" forwards_by_views
          c.forwards_by_views s 100]
      else pure []
    let l2 ←
      if reaction_count_by_views > c.reaction_count_by_views then do
        let s ← scoreStaticMetrics reaction_count_by_views c.reaction_count_by_views
        pure [MetricAnomaly.mk "reaction_count_by_views" reaction_count_by_views
          c.reaction_count_by_views s 100]
      else pure []
    pure (l1 ++ l2)

/-- The prediction columns `_check_predicted_metrics` reads. -/
structure Prediction where
  views : ℚ
  views_upper : ℚ

/-- The statistics columns `_score_predicted_metrics` reads. -/
structure Statistics where
  mean : ℚ
  std : ℚ

/-- Embeds `TelegramMetricAnomalyDetector._score_predicted_metrics` with
`x_offset = 2`, `x_stretch = 1.5`. -/
noncomputable def scorePredictedMetrics (metric_value expected_value : ℚ)
    (statistics : Option Statistics) : Except String ℝ := do
  let deviation ← pyDiv metric_value expected_value
  let z_score ←
    match statistics with
    | some st => pyDiv (deviation - st.mean) st.std
    | none => pure deviation
  pure (1 / (1 + Real.exp (-(z_score : ℝ) / 1.5 + 2)))

/-- Embeds `TelegramMetricAnomalyDetector._check_predicted_metrics`.
`getPrediction` and `getStatistics` are the prediction-cache collaborator
calls; the `strptime`-parsed `loading_date` is passed as the raw string. -/
noncomputable def checkPredictedMetrics
    (getPrediction : String → ℤ → ℤ → Option Prediction)
    (getStatistics : String → ℤ → ℤ → String → Option Statistics)
    (a : MetricArticle) : Except String (List MetricAnomaly) :=
  let prediction := getPrediction (a.loading_date.getD "") (a.chat_id.getD 0) (a.delta.getD 0)
  let statistics := getStatistics (a.loading_date.getD "") (a.chat_id.getD 0)
    (a.delta.getD 0) "views"
  match prediction with
  | none => Except.ok []
  | some p =>
    if a.views.getD 0 > p.views_upper then do
      let s ← scorePredictedMetrics (a.views.getD 0) p.views statistics
      pure [MetricAnomaly.mk "views" (a.views.getD 0) p.views s 200]
    else Except.ok []

/-- Embeds `TelegramMetricAnomalyDetector.run`: field check, minimal
threshold gate, then static and predicted checks, in source order. -/
noncomputable def runMetricDetector (getCoefficients : ℤ → Option Coefficients)
    (getPrediction : String → ℤ → ℤ → Option Prediction)
    (getStatistics : String → ℤ → ℤ → String → Option Statistics)
    (a : MetricArticle) : Except String (List MetricAnomaly) :=
  if ¬ checkArticleFieldsMetric a then Except.ok []
  else if ¬ checkArticleMinimalThreshold getCoefficients a then Except.ok []
  else do
    let staticAnomalies ← checkStaticMetrics getCoefficients a
    let predictedAnomalies ← checkPredictedMetrics getPrediction getStatistics a
    pure (staticAnomalies ++ predictedAnomalies)

end Metrics

namespace Cache

/-- A Python `datetime` as `TelegramPredictionCache` manipulates it:
`rest` packs the year/month/day/hour component (never touched by the
cache), and `minute`, `second`, `microsecond` are the fields the cache
replaces.  Equality of keys is field-wise, as for `datetime`. -/
structure PyDateTime where
  rest : ℤ
  minute : ℤ
  second : ℤ
  microsecond : ℤ
deriving DecidableEq

/-- Embeds `TelegramPredictionCache._get_nearest_date`:
`dt.replace(minute=minutes - minutes % step, second=0)` — the microsecond
field is left untouched. -/
def getNearestDate (step : ℤ) (dt : PyDateTime) : PyDateTime :=
  { dt with minute := dt.minute - dt.minute % step, second := 0 }

/-- `row.date.replace(second=0, microsecond=0)` as used when inserting
prediction rows. -/
def truncSecMicro (d : PyDateTime) : PyDateTime :=
  { d with second := 0, microsecond := 0 }

/-- A Python `dict` as an association list: one pair per key, insertion
replaces in place. -/
def dictInsert {κ ν : Type} [DecidableEq κ] : List (κ × ν) → κ → ν → List (κ × ν)
  | [], k, v => [(k, v)]
  | (k0, v0) :: t, k, v =>
    if k0 = k then (k, v) :: t else (k0, v0) :: dictInsert t k v

/-- `dict.get(k)`: the value stored at `k`, if any. -/
def dictGet {κ ν : Type} [DecidableEq κ] (l : List (κ × ν)) (k : κ) : Option ν :=
  (l.find? (fun p => decide (p.1 = k))).map Prod.snd

/-- One row of `metrics_telegram_prediction` as the cache reads it:
the key columns plus the remaining prediction columns, abstracted as one
payload value. -/
structure PredRow (ν : Type) where
  date : PyDateTime
  chat_id : ℤ
  delta : ℤ
  fields : ν

/-- The predictions TTL cache, keyed by
`(date.replace(second=0, microsecond=0), chat_id, delta)`. -/
abbrev PredCache (ν : Type) : Type := List ((PyDateTime × ℤ × ℤ) × ν)

/-- Embeds the insertion loop of
`TelegramPredictionCache._get_predictions_from_db`: every returned row is
stored under `(row.date.replace(second=0, microsecond=0), row.chat_id,
row.delta)`. -/
def refillPredictions {ν : Type} (rows : List (PredRow ν)) (cache : PredCache ν) :
    PredCache ν :=
  rows.foldl (fun c r => dictInsert c (truncSecMicro r.date, r.chat_id, r.delta) r.fields) cache

/-- Embeds `TelegramPredictionCache.get_prediction`.  `query d` models the
relational-store range query over `[d - update_window, d + update_window]`
issued by the refill (the store is an external collaborator).  The third
component counts the refills the call performed. -/
def getPrediction {ν : Type} (query : PyDateTime → List (PredRow ν)) (step : ℤ)
    (cache : PredCache ν) (date : PyDateTime) (chat_id delta : ℤ) :
    Option ν × PredCache ν × ℕ :=
  match dictGet cache (getNearestDate step date, chat_id, delta) with
  | some p => (some p, cache, 0)
  | none =>
    (dictGet (refillPredictions (query (getNearestDate step date)) cache)
      (getNearestDate step date, chat_id, delta),
     refillPredictions (query (getNearestDate step date)) cache, 1)

/-- Embeds `TelegramPredictionCache.get_coefficients`.  `query ()` models
the full-table coefficients query issued by
`_get_coefficients_from_db`. -/
def getCoefficients {ν : Type} (query : Unit → List (ℤ × ν))
    (cache : List (ℤ × ν)) (chat_id : ℤ) : Option ν × List (ℤ × ν) × ℕ :=
  match dictGet cache chat_id with
  | some c => (some c, cache, 0)
  | none =>
    (dictGet ((query ()).foldl (fun c p => dictInsert c p.1 p.2) cache) chat_id,
     (query ()).foldl (fun c p => dictInsert c p.1 p.2) cache, 1)

/-- The key of one `metrics_telegram_statistic` row.  Timestamps are
modelled as integers: only their linear order is used. -/
structure StatKey where
  date_from : ℤ
  date_to : ℤ
  chat_id : ℤ
  delta : ℤ
  metric : String
deriving DecidableEq

/-- The membership test of the scan in `get_statistics`:
`row[0] < date < row[1] and row[2] == chat_id and row[3] == delta and
row[4] == metric`. -/
def statMatches (k : StatKey) (date chat_id delta : ℤ) (metric : String) : Bool :=
  decide (k.date_from < date) && decide (date < k.date_to) &&
    decide (k.chat_id = chat_id) && decide (k.delta = delta) && decide (k.metric = metric)

/-- The `rows_for_date` dict built by `get_latest_statistics`: iterate the
cached rows in insertion order, keeping each matching row's value under
its `date_to` (a later matching row with the same `date_to`
overwrites). -/
def rowsForDate {ν : Type} (cache : List (StatKey × ν)) (date chat_id delta : ℤ)
    (metric : String) : List (ℤ × ν) :=
  cache.foldl
    (fun m p => if statMatches p.1 date chat_id delta metric then dictInsert m p.1.date_to p.2 else m)
    []

/-- Ascending order on `rows_for_date.items()` keys, as used by
`sorted(rows_for_date.items(), key=lambda x: x[0])`. -/
def keyLE {ν : Type} (p q : ℤ × ν) : Prop := p.1 ≤ q.1

instance {ν : Type} : DecidableRel (keyLE (ν := ν)) :=
  fun p q => decidable_of_iff (p.1 ≤ q.1) Iff.rfl

instance {ν : Type} : IsTotal (ℤ × ν) keyLE :=
  ⟨fun p q => le_total p.1 q.1⟩

instance {ν : Type} : IsTrans (ℤ × ν) keyLE :=
  ⟨fun _ _ _ h1 h2 => le_trans h1 h2⟩

/-- `sorted(rows_for_date.items(), key=lambda x: x[0])[-1][1]` guarded by
`len(rows_for_date) > 0`: the value stored under the largest key, `none`
when the dict is empty. -/
def latestValue {ν : Type} (m : List (ℤ × ν)) : Option ν :=
  ((List.insertionSort keyLE m).getLast?).map Prod.snd

/-- Embeds the inner `get_latest_statistics` of
`TelegramPredictionCache.get_statistics`. -/
def getLatestStatistics {ν : Type} (cache : List (StatKey × ν)) (date chat_id delta : ℤ)
    (metric : String) : Option ν :=
  latestValue (rowsForDate cache date chat_id delta metric)

/-- Embeds the insertion loop of `_get_statistics_from_db`. -/
def refillStatistics {ν : Type} (rows : List (StatKey × ν))
    (cache : List (StatKey × ν)) : List (StatKey × ν) :=
  rows.foldl (fun c p => dictInsert c p.1 p.2) cache

/-- Embeds `TelegramPredictionCache.get_statistics`.  `query date` models
the relational-store query `date_from <= date <= date_to` issued by the
refill.  The third component counts the refills the call performed. -/
def getStatistics {ν : Type} (query : ℤ → List (StatKey × ν))
    (cache : List (StatKey × ν)) (date chat_id delta : ℤ) (metric : String) :
    Option ν × List (StatKey × ν) × ℕ :=
  match getLatestStatistics cache date chat_id delta metric with
  | some s => (some s, cache, 0)
  | none =>
    (getLatestStatistics (refillStatistics (query date) cache) date chat_id delta metric,
     refillStatistics (query date) cache, 1)

end Cache

namespace Detector

theorem filter_orderedInsert_neg {s : ℚ} {a : Anomaly} {l : List Anomaly}
    (ha : a.score ≠ s) :
    (List.orderedInsert scoreGE a l).filter (scoreFilter s) = l.filter (scoreFilter s) := by
  induction l with
  | nil => simp [List.orderedInsert, scoreFilter, ha]
  | cons b t ih =>
    rw [List.orderedInsert]
    split
    · simp [List.filter_cons, scoreFilter, ha]
    · simp only [List.filter_cons, ih]

theorem filter_orderedInsert_pos {s : ℚ} {a : Anomaly} {l : List Anomaly}
    (hl : List.Sorted scoreGE l) (ha : a.score = s) :
    (List.orderedInsert scoreGE a l).filter (scoreFilter s) =
      a :: l.filter (scoreFilter s) := by
  induction l with
  | nil => simp [List.orderedInsert, scoreFilter, ha]
  | cons b t ih =>
    rw [List.orderedInsert]
    split
    · simp [List.filter_cons, scoreFilter, ha]
    · rename_i h
      have hab : a.score < b.score := lt_of_not_le h
      have hbs : ¬ (b.score = s) := by
        intro e
        exact absurd (ha ▸ e ▸ hab) (lt_irrefl _)
      simp only [List.filter_cons, scoreFilter, decide_eq_true_eq, hbs, if_false]
      have := ih hl.of_cons
      simpa [scoreFilter] using this

theorem filter_sortAnomaliesDesc (s : ℚ) (l : List Anomaly) :
    (sortAnomaliesDesc l).filter (scoreFilter s) = l.filter (scoreFilter s) := by
  induction l with
  | nil => rfl
  | cons a t ih =>
    have hsort : sortAnomaliesDesc (a :: t) =
        List.orderedInsert scoreGE a (List.insertionSort scoreGE t) := rfl
    by_cases ha : a.score = s
    · rw [hsort, filter_orderedInsert_pos (List.sorted_insertionSort scoreGE t) ha]
      rw [show List.insertionSort scoreGE t = sortAnomaliesDesc t from rfl, ih]
      simp [List.filter_cons, scoreFilter, ha]
    · rw [hsort, filter_orderedInsert_neg ha]
      rw [show List.insertionSort scoreGE t = sortAnomaliesDesc t from rfl, ih]
      simp [List.filter_cons, scoreFilter, ha]

theorem sortAnomaliesDesc_perm (l : List Anomaly) :
    List.Perm (sortAnomaliesDesc l) l :=
  List.perm_insertionSort scoreGE l

theorem sortAnomaliesDesc_sorted (l : List Anomaly) :
    List.Sorted scoreGE (sortAnomaliesDesc l) :=
  List.sorted_insertionSort scoreGE l

theorem createAlert_of_ne_nil (alertId : String) (kibanaUrl : Option String)
    (msg : Message) {l : List Anomaly} (hl : l ≠ []) :
    ∃ top rest, sortAnomaliesDesc l = top :: rest ∧
      createAlert alertId kibanaUrl msg l =
        some
          { id := alertId
            score := calculateTotalAnomalyScore (sortAnomaliesDesc l)
            domain := domainFor msg.method
            source := msg.source
            description := generateDescription (sortAnomaliesDesc l) msg.source
              msg.deltaTruthy (calculateTotalAnomalyScore (sortAnomaliesDesc l))
            url := kibanaUrl
            field_name := top.metric_name
            anomaly_value := top.metric_value
            expected_value := top.expected_value
            all_anomalies := sortAnomaliesDesc l } := by
  have hs : sortAnomaliesDesc l ≠ [] := by
    intro h
    exact hl (List.Perm.eq_nil ((sortAnomaliesDesc_perm l).symm.trans (h ▸ List.Perm.refl _)))
  cases h : sortAnomaliesDesc l with
  | nil => exact absurd h hs
  | cons top rest =>
    refine ⟨top, rest, rfl, ?_⟩
    unfold createAlert
    rw [h]

/-- C2: for every non-empty anomaly list, the alert's `all_anomalies` is
the stable descending-by-score sort of the collected anomalies (sorted
descending, a permutation of the input, equal-score anomalies in encounter
order), and its total score is the exact sum of all scores. -/
theorem c2_alert_sorted_and_summed (alertId : String) (kibanaUrl : Option String)
    (msg : Message) (l : List Anomaly) (hl : l ≠ []) :
    ∃ alert, createAlert alertId kibanaUrl msg l = some alert ∧
      List.Sorted scoreGE alert.all_anomalies ∧
      List.Perm alert.all_anomalies l ∧
      (∀ s : ℚ, alert.all_anomalies.filter (scoreFilter s) = l.filter (scoreFilter s)) ∧
      alert.score = (l.map Anomaly.score).sum := by
  obtain ⟨top, rest, hsort, halert⟩ := createAlert_of_ne_nil alertId kibanaUrl msg hl
  refine ⟨_, halert, ?_, ?_, ?_, ?_⟩
  · exact sortAnomaliesDesc_sorted l
  · exact sortAnomaliesDesc_perm l
  · exact fun s => filter_sortAnomaliesDesc s l
  · show calculateTotalAnomalyScore (sortAnomaliesDesc l) = (l.map Anomaly.score).sum
    exact List.Perm.sum_eq (List.Perm.map Anomaly.score (sortAnomaliesDesc_perm l))

/-- Witness for C2 at a concrete two-anomaly input whose scores sum above
one. -/
theorem c2_alert_sorted_and_summed_witness :
    ([(⟨"views", MetricValue.num 500, 100, 9/10, 200⟩ : Anomaly),
      ⟨"forward", MetricValue.num 1, 0, 1, 100⟩] ≠ ([] : List Anomaly)) ∧
    ∃ alert,
      createAlert "id0" none ⟨"m0", "TelegramListener", "src0", none⟩
        [⟨"views", MetricValue.num 500, 100, 9/10, 200⟩,
         ⟨"forward", MetricValue.num 1, 0, 1, 100⟩] = some alert ∧
      List.Sorted scoreGE alert.all_anomalies ∧
      List.Perm alert.all_anomalies
        [⟨"views", MetricValue.num 500, 100, 9/10, 200⟩,
         ⟨"forward", MetricValue.num 1, 0, 1, 100⟩] ∧
      (∀ s : ℚ, alert.all_anomalies.filter (scoreFilter s) =
        List.filter (scoreFilter s)
          [⟨"views", MetricValue.num 500, 100, 9/10, 200⟩,
           ⟨"forward", MetricValue.num 1, 0, 1, 100⟩]) ∧
      alert.score =
        (List.map Anomaly.score
          [⟨"views", MetricValue.num 500, 100, 9/10, 200⟩,
           ⟨"forward", MetricValue.num 1, 0, 1, 100⟩]).sum :=
  ⟨by decide,
    c2_alert_sorted_and_summed "id0" none ⟨"m0", "TelegramListener", "src0", none⟩
      [⟨"views", MetricValue.num 500, 100, 9/10, 200⟩,
       ⟨"forward", MetricValue.num 1, 0, 1, 100⟩] (by decide)⟩

/-- C9: the aggregator returns `None` exactly when the detectors collected
no anomaly, and returns an alert whenever at least one anomaly was
collected. -/
theorem c9_absent_iff_no_anomalies (alertId : String) (kibanaUrl : Option String)
    (detectors : List (Message → List Anomaly)) (msg : Message) :
    (runAggregator alertId kibanaUrl detectors msg = none ↔
      runDetectors detectors msg = []) ∧
    (runDetectors detectors msg ≠ [] →
      ∃ alert, runAggregator alertId kibanaUrl detectors msg = some alert) := by
  unfold runAggregator
  by_cases h : runDetectors detectors msg = []
  · simp [h]
  · obtain ⟨top, rest, hsort, halert⟩ := createAlert_of_ne_nil alertId kibanaUrl msg h
    constructor
    · rw [if_neg (by simpa [List.length_eq_zero] using h), halert]
      simp [h]
    · intro _
      exact ⟨_, by rw [if_neg (by simpa [List.length_eq_zero] using h), halert]⟩

/-- C8: the severity prefix is chosen from the total score by the fixed
thresholds (strictly above 0.75, 0.25 and 0), numeric anomalies render as
`"<metric> (<value/expected:.1f>x higher)"` (or the `"x expected"` form
when the expected value is exactly zero), string-valued anomalies as
`"<metric> is <value>"`, points are joined with commas and `"and"` before
the last, and the spec's single-anomaly example with total score 0.9
renders as `"Critical anomaly in views (5.0x higher) found for src"`. -/
theorem c8_description_template :
    (∀ ts : ℚ, severityFor ts =
      if 3/4 < ts then "Critical anomaly"
      else if 1/4 < ts then "Major anomaly"
      else if 0 < ts then "Minor anomaly"
      else "Warning anomaly") ∧
    (∀ (a : Anomaly) (v : ℚ), a.metric_value = MetricValue.num v → a.expected_value ≠ 0 →
      descriptionPoint a =
        a.metric_name ++ " (" ++ formatFixed 1 (v / a.expected_value) ++ "x higher)") ∧
    (∀ (a : Anomaly) (v : ℚ), a.metric_value = MetricValue.num v → a.expected_value = 0 →
      descriptionPoint a = a.metric_name ++ " (0.00x expected)") ∧
    (∀ (a : Anomaly) (s : String), a.metric_value = MetricValue.str s →
      descriptionPoint a = a.metric_name ++ " is " ++ s) ∧
    (∀ p : String, joinPoints [p] = p) ∧
    (∀ p q : String, joinPoints [p, q] = p ++ " and " ++ q) ∧
    (∀ p q r : String, joinPoints [p, q, r] = p ++ ", " ++ q ++ " and " ++ r) ∧
    generateDescription [⟨"views", MetricValue.num 500, 100, 9/10, 200⟩] "src" none (9/10) =
      "Critical anomaly in views (5.0x higher) found for src" := by
  refine ⟨fun ts => rfl, ?_, ?_, ?_, fun p => rfl, ?_, ?_, ?_⟩
  · intro a v hmv hne
    simp only [descriptionPoint, hmv]
    rw [if_neg hne]
  · intro a v hmv he
    simp only [descriptionPoint, hmv]
    rw [if_pos he, he]
    have hf : formatFixed 2 0 = "0.00" := by
      norm_num [formatFixed, roundHalfEven, padZeros]
      rfl
    rw [hf, String.append_assoc, String.append_assoc]
    rfl
  · intro a s hmv
    simp only [descriptionPoint, hmv]
  · intro p q
    show String.intercalate ", " [p] ++ " and " ++ q = p ++ " and " ++ q
    simp [String.intercalate, String.intercalate.go]
  · intro p q r
    show String.intercalate ", " [p, q] ++ " and " ++ r = p ++ ", " ++ q ++ " and " ++ r
    simp [String.intercalate, String.intercalate.go]
  · show severityFor (9/10) ++ " in " ++
      joinPoints (List.map descriptionPoint
        [⟨"views", MetricValue.num 500, 100, 9/10, 200⟩]) ++ " found for " ++ "src" =
      "Critical anomaly in views (5.0x higher) found for src"
    have hsev : severityFor (9/10 : ℚ) = "Critical anomaly" := by
      unfold severityFor anomalyColorRed
      rw [if_pos (by norm_num)]
    have hpoint : descriptionPoint ⟨"views", MetricValue.num 500, 100, 9/10, 200⟩ =
        "views (5.0x higher)" := by
      simp only [descriptionPoint]
      rw [if_neg (by norm_num)]
      have hf : formatFixed 1 ((500 : ℚ) / 100) = "5.0" := by
        norm_num [formatFixed, roundHalfEven, padZeros]
        rfl
      rw [hf]
      rfl
    rw [hsev]
    show _ ++ " in " ++ joinPoints [descriptionPoint ⟨"views", MetricValue.num 500, 100, 9/10, 200⟩] ++ " found for " ++ "src" = _
    rw [hpoint]
    rfl

/-- Witness for C8: the numeric-rendering branch applied at the example
anomaly. -/
theorem c8_description_template_witness :
    ((⟨"views", MetricValue.num 500, 100, 9/10, 200⟩ : Anomaly).metric_value =
      MetricValue.num 500 ∧
      (⟨"views", MetricValue.num 500, 100, 9/10, 200⟩ : Anomaly).expected_value ≠ 0) ∧
    descriptionPoint ⟨"views", MetricValue.num 500, 100, 9/10, 200⟩ =
      "views (5.0x higher)" ∧
    severityFor (9/10) = "Critical anomaly" :=
  ⟨⟨rfl, by norm_num⟩,
    (c8_description_template.2.1 ⟨"views", MetricValue.num 500, 100, 9/10, 200⟩ 500 rfl
      (by norm_num)).trans
      (by
        have hf : formatFixed 1 ((500 : ℚ) / 100) = "5.0" := by
          norm_num [formatFixed, roundHalfEven, padZeros]
          rfl
        rw [hf]
        rfl),
    (c8_description_template.1 (9/10)).trans (by norm_num)⟩

/-- Witness for C9 with one detector emitting one anomaly. -/
theorem c9_absent_iff_no_anomalies_witness :
    runDetectors [fun _ => [⟨"forward", MetricValue.num 1, 0, 1, 100⟩]]
        ⟨"m1", "opoint", "src1", none⟩ ≠ [] ∧
    ∃ alert,
      runAggregator "id1" none [fun _ => [⟨"forward", MetricValue.num 1, 0, 1, 100⟩]]
        ⟨"m1", "opoint", "src1", none⟩ = some alert :=
  ⟨by decide,
    (c9_absent_iff_no_anomalies "id1" none
      [fun _ => [⟨"forward", MetricValue.num 1, 0, 1, 100⟩]]
      ⟨"m1", "opoint", "src1", none⟩).2 (by decide)⟩

end Detector

namespace Repost

open Detector

/-- C1: evaluation of the repost detector at the spec's own example.  With
`country = "US"` and the forward source mapped to `"FR"` the code appends
no anomaly; it appends the anomaly exactly when the two countries are
equal, because `_check_original_chat_country` returns
`not (original_country != forward_country)` while its docstring promises
"True if countries are different".  The sentinel behavior
(`country = "xx"` never yields an anomaly) does hold. -/
theorem c1_repost_comparison_inverted :
    runRepostDetector (fun i => if i = 42 then some "FR" else none)
      ⟨some "US", some 42⟩ = [] ∧
    runRepostDetector (fun i => if i = 42 then some "US" else none)
      ⟨some "US", some 42⟩ = [⟨"forward", MetricValue.num 1, 0, 1, 100⟩] ∧
    runRepostDetector (fun i => if i = 42 then some "FR" else none)
      ⟨some "xx", some 42⟩ = [] := by
  refine ⟨?_, ?_, ?_⟩ <;> rfl

end Repost

namespace Cache

theorem dictGet_none_of_forall {κ ν : Type} [DecidableEq κ] (P : κ → Prop)
    {l : List (κ × ν)} (hP : ∀ p ∈ l, P p.1) {k : κ} (hk : ¬ P k) :
    dictGet l k = none := by
  induction l with
  | nil => rfl
  | cons p t ih =>
    unfold dictGet
    rw [List.find?]
    have hpk : ¬ (p.1 = k) := fun e => hk (e ▸ hP p (List.mem_cons_self p t))
    simp only [hpk, decide_False]
    exact ih fun q hq => hP q (List.mem_cons_of_mem p hq)

theorem mem_dictInsert_elim {κ ν : Type} [DecidableEq κ] {l : List (κ × ν)}
    {k : κ} {v : ν} {p : κ × ν} (h : p ∈ dictInsert l k v) :
    p = (k, v) ∨ p ∈ l := by
  induction l with
  | nil => simpa [dictInsert] using h
  | cons q t ih =>
    unfold dictInsert at h
    split at h
    · rcases List.mem_cons.mp h with h1 | h1
      · exact Or.inl h1
      · exact Or.inr (List.mem_cons_of_mem q h1)
    · rcases List.mem_cons.mp h with h1 | h1
      · exact Or.inr (h1 ▸ List.mem_cons_self q t)
      · rcases ih h1 with h2 | h2
        · exact Or.inl h2
        · exact Or.inr (List.mem_cons_of_mem q h2)

theorem refillPredictions_forall {ν : Type} (P : PyDateTime × ℤ × ℤ → Prop)
    (hP0 : ∀ d : PyDateTime, ∀ c i : ℤ, P (truncSecMicro d, c, i))
    (rows : List (PredRow ν)) :
    ∀ cache : PredCache ν, (∀ p ∈ cache, P p.1) →
      ∀ p ∈ refillPredictions rows cache, P p.1 := by
  induction rows with
  | nil => exact fun cache h => h
  | cons r t ih =>
    intro cache hc
    refine ih _ ?_
    intro p hp
    rcases mem_dictInsert_elim hp with h1 | h1
    · rw [h1]
      exact hP0 r.date r.chat_id r.delta
    · exact hc p h1

/-- C4: each of the three cache getters performs at most one refill per
call, and after a miss it performs exactly one refill and settles for the
single re-check of the refilled cache — there is no further retry. -/
theorem c4_at_most_one_refill :
    (∀ (ν : Type) (query : PyDateTime → List (PredRow ν)) (step : ℤ)
        (cache : PredCache ν) (date : PyDateTime) (chat_id delta : ℤ),
      (getPrediction query step cache date chat_id delta).2.2 ≤ 1 ∧
      (dictGet cache (getNearestDate step date, chat_id, delta) = none →
        (getPrediction query step cache date chat_id delta).2.2 = 1 ∧
        (getPrediction query step cache date chat_id delta).1 =
          dictGet (refillPredictions (query (getNearestDate step date)) cache)
            (getNearestDate step date, chat_id, delta))) ∧
    (∀ (ν : Type) (query : ℤ → List (StatKey × ν)) (cache : List (StatKey × ν))
        (date chat_id delta : ℤ) (metric : String),
      (getStatistics query cache date chat_id delta metric).2.2 ≤ 1 ∧
      (getLatestStatistics cache date chat_id delta metric = none →
        (getStatistics query cache date chat_id delta metric).2.2 = 1 ∧
        (getStatistics query cache date chat_id delta metric).1 =
          getLatestStatistics (refillStatistics (query date) cache)
            date chat_id delta metric)) ∧
    (∀ (ν : Type) (query : Unit → List (ℤ × ν)) (cache : List (ℤ × ν)) (chat_id : ℤ),
      (getCoefficients query cache chat_id).2.2 ≤ 1 ∧
      (dictGet cache chat_id = none →
        (getCoefficients query cache chat_id).2.2 = 1 ∧
        (getCoefficients query cache chat_id).1 =
          dictGet ((query ()).foldl (fun c p => dictInsert c p.1 p.2) cache) chat_id)) := by
  refine ⟨?_, ?_, ?_⟩
  · intro ν query step cache date chat_id delta
    constructor
    · unfold getPrediction
      split <;> simp
    · intro h
      unfold getPrediction
      rw [h]
      exact ⟨rfl, rfl⟩
  · intro ν query cache date chat_id delta metric
    constructor
    · unfold getStatistics
      split <;> simp
    · intro h
      unfold getStatistics
      rw [h]
      exact ⟨rfl, rfl⟩
  · intro ν query cache chat_id
    constructor
    · unfold getCoefficients
      split <;> simp
    · intro h
      unfold getCoefficients
      rw [h]
      exact ⟨rfl, rfl⟩

/-- Witness for C4: with an empty cache and a store returning nothing,
each getter misses, refills exactly once and returns absent. -/
theorem c4_at_most_one_refill_witness :
    (dictGet ([] : PredCache ℚ) (getNearestDate 5 ⟨0, 32, 10, 0⟩, 7, 300) = none ∧
      (getPrediction (fun _ => []) 5 ([] : PredCache ℚ) ⟨0, 32, 10, 0⟩ 7 300).2.2 = 1) ∧
    (getLatestStatistics ([] : List (StatKey × ℚ)) 5 7 300 "views" = none ∧
      (getStatistics (fun _ => []) ([] : List (StatKey × ℚ)) 5 7 300 "views").2.2 = 1) ∧
    (dictGet ([] : List (ℤ × ℚ)) 7 = none ∧
      (getCoefficients (fun _ => []) ([] : List (ℤ × ℚ)) 7).2.2 = 1) :=
  ⟨⟨rfl, ((c4_at_most_one_refill.1 ℚ (fun _ => []) 5 [] ⟨0, 32, 10, 0⟩ 7 300).2 rfl).1⟩,
   ⟨rfl, ((c4_at_most_one_refill.2.1 ℚ (fun _ => []) [] 5 7 300 "views").2 rfl).1⟩,
   ⟨rfl, ((c4_at_most_one_refill.2.2 ℚ (fun _ => []) [] 7).2 rfl).1⟩⟩

/-- C10: the lookup key of `get_prediction` keeps the microseconds of the
queried date (`_get_nearest_date` rounds minutes down to the step and
zeroes seconds only), while every key a prediction refill inserts has
microseconds zeroed; hence a date with nonzero microseconds misses both
before and after the refill, even when the store holds a row for that
bucket, chat and delta. -/
theorem c10_microsecond_mismatch (ν : Type) (query : PyDateTime → List (PredRow ν))
    (step : ℤ) (cache : PredCache ν) (date : PyDateTime) (chat_id delta : ℤ)
    (hcache : ∀ p ∈ cache, p.1.1.microsecond = 0)
    (hdate : date.microsecond ≠ 0) :
    (getNearestDate step date).microsecond = date.microsecond ∧
    (getNearestDate step date).second = 0 ∧
    (getNearestDate step date).minute = date.minute - date.minute % step ∧
    (getPrediction query step cache date chat_id delta).1 = none := by
  refine ⟨rfl, rfl, rfl, ?_⟩
  have hmiss : dictGet cache (getNearestDate step date, chat_id, delta) = none := by
    refine dictGet_none_of_forall (fun k => k.1.microsecond = 0) hcache ?_
    exact fun h => hdate h
  unfold getPrediction
  rw [hmiss]
  refine dictGet_none_of_forall (fun k => k.1.microsecond = 0) ?_ (fun h => hdate h)
  exact refillPredictions_forall (fun k => k.1.microsecond = 0) (fun _ _ _ => rfl)
    (query (getNearestDate step date)) cache hcache

/-- Witness for C10: the store holds a row for bucket minute 30, chat 7,
delta 300, yet a query at minute 32 with 123 microseconds returns
absent. -/
theorem c10_microsecond_mismatch_witness :
    (∀ p ∈ ([] : PredCache ℚ), p.1.1.microsecond = 0) ∧
    (123 : ℤ) ≠ 0 ∧
    (getPrediction (fun _ => [⟨⟨0, 30, 45, 123⟩, 7, 300, (5 : ℚ)⟩]) 5
      ([] : PredCache ℚ) ⟨0, 32, 10, 123⟩ 7 300).1 = none :=
  ⟨fun p hp => absurd hp (List.not_mem_nil p), by decide,
    (c10_microsecond_mismatch ℚ (fun _ => [⟨⟨0, 30, 45, 123⟩, 7, 300, (5 : ℚ)⟩]) 5 []
      ⟨0, 32, 10, 123⟩ 7 300 (fun p hp => absurd hp (List.not_mem_nil p))
      (by decide)).2.2.2⟩

theorem dictInsert_mem_self {κ ν : Type} [DecidableEq κ] (l : List (κ × ν)) (k : κ) (v : ν) :
    (k, v) ∈ dictInsert l k v := by
  induction l with
  | nil => simp [dictInsert]
  | cons q t ih =>
    obtain ⟨k0, v0⟩ := q
    unfold dictInsert
    split
    · exact List.mem_cons_self _ _
    · exact List.mem_cons_of_mem _ ih

theorem mem_dictInsert_of_ne {κ ν : Type} [DecidableEq κ] {l : List (κ × ν)} {k : κ} {v : ν}
    {k2 : κ} {v2 : ν} (h : (k, v) ∈ l) (hne : k ≠ k2) : (k, v) ∈ dictInsert l k2 v2 := by
  induction l with
  | nil => exact absurd h (List.not_mem_nil _)
  | cons q t ih =>
    obtain ⟨k0, v0⟩ := q
    unfold dictInsert
    split
    · rename_i heq
      rcases List.mem_cons.mp h with h1 | h1
      · cases h1
        exact absurd heq hne
      · exact List.mem_cons_of_mem _ h1
    · rcases List.mem_cons.mp h with h1 | h1
      · exact h1 ▸ List.mem_cons_self _ _
      · exact List.mem_cons_of_mem _ (ih h1)

theorem statRowsAux_mem {ν : Type} (date chat_id delta : ℤ) (metric : String)
    (cache : List (StatKey × ν)) :
    ∀ (acc : List (ℤ × ν)) (e : ℤ) (w : ν),
      (e, w) ∈ acc →
      (∀ k2 v2, (k2, v2) ∈ cache → statMatches k2 date chat_id delta metric = true →
        k2.date_to = e → v2 = w) →
      (e, w) ∈ cache.foldl
        (fun m p => if statMatches p.1 date chat_id delta metric then
          dictInsert m p.1.date_to p.2 else m) acc := by
  induction cache with
  | nil => exact fun acc e w h _ => h
  | cons p t ih =>
    intro acc e w h hu
    rw [List.foldl_cons]
    have hstep : (e, w) ∈ (if statMatches p.1 date chat_id delta metric then
        dictInsert acc p.1.date_to p.2 else acc) := by
      by_cases hm : statMatches p.1 date chat_id delta metric = true
      · rw [if_pos hm]
        by_cases he : p.1.date_to = e
        · have hv : p.2 = w := hu p.1 p.2 (List.mem_cons_self _ _) hm he
          rw [← he, ← hv] at h ⊢
          exact dictInsert_mem_self acc p.1.date_to p.2
        · exact mem_dictInsert_of_ne h (fun ee => he ee.symm)
      · rw [if_neg hm]
        exact h
    exact ih _ e w hstep
      (fun k2 v2 hk2 hm he => hu k2 v2 (List.mem_cons_of_mem _ hk2) hm he)

theorem statRowsAux_source {ν : Type} (date chat_id delta : ℤ) (metric : String)
    (cache : List (StatKey × ν)) :
    ∀ (acc : List (ℤ × ν)) (e : ℤ) (w : ν),
      (e, w) ∈ cache.foldl
        (fun m p => if statMatches p.1 date chat_id delta metric then
          dictInsert m p.1.date_to p.2 else m) acc →
      (e, w) ∈ acc ∨ ∃ k, (k, w) ∈ cache ∧
        statMatches k date chat_id delta metric = true ∧ k.date_to = e := by
  induction cache with
  | nil => exact fun acc e w h => Or.inl h
  | cons p t ih =>
    intro acc e w h
    rw [List.foldl_cons] at h
    rcases ih _ e w h with h1 | ⟨k, hk, hm, he⟩
    · by_cases hm : statMatches p.1 date chat_id delta metric = true
      · rw [if_pos hm] at h1
        rcases mem_dictInsert_elim h1 with h2 | h2
        · refine Or.inr ⟨p.1, ?_, hm, ?_⟩
          · have : p = (p.1, w) := by
              rw [Prod.mk.injEq] at h2
              exact Prod.ext rfl h2.2.symm
            exact this ▸ List.mem_cons_self _ _
          · rw [Prod.mk.injEq] at h2
            exact h2.1.symm
        · exact Or.inl h2
      · rw [if_neg hm] at h1
        exact Or.inl h1
    · exact Or.inr ⟨k, List.mem_cons_of_mem _ hk, hm, he⟩

theorem statRowsAux_insert {ν : Type} (date chat_id delta : ℤ) (metric : String)
    {k : StatKey} {v : ν} (cache : List (StatKey × ν)) :
    ∀ acc : List (ℤ × ν), (k, v) ∈ cache →
      statMatches k date chat_id delta metric = true →
      (∀ k2 v2, (k2, v2) ∈ cache → statMatches k2 date chat_id delta metric = true →
        k2.date_to = k.date_to → v2 = v) →
      (k.date_to, v) ∈ cache.foldl
        (fun m p => if statMatches p.1 date chat_id delta metric then
          dictInsert m p.1.date_to p.2 else m) acc := by
  induction cache with
  | nil => exact fun acc h _ _ => absurd h (List.not_mem_nil _)
  | cons p t ih =>
    intro acc hmem hm hu
    rcases List.mem_cons.mp hmem with h1 | h1
    · subst h1
      rw [List.foldl_cons]
      refine statRowsAux_mem date chat_id delta metric t _ k.date_to v ?_
        (fun k2 v2 hk2 hm2 he2 => hu k2 v2 (List.mem_cons_of_mem _ hk2) hm2 he2)
      show (k.date_to, v) ∈ (if statMatches k date chat_id delta metric then
        dictInsert acc k.date_to v else acc)
      rw [if_pos hm]
      exact dictInsert_mem_self acc k.date_to v
    · rw [List.foldl_cons]
      exact ih _ h1 hm
        (fun k2 v2 hk2 hm2 he2 => hu k2 v2 (List.mem_cons_of_mem _ hk2) hm2 he2)

theorem sorted_getLast {ν : Type} :
    ∀ m : List (ℤ × ν), m ≠ [] → List.Sorted keyLE m →
      ∃ p, m.getLast? = some p ∧ p ∈ m ∧ ∀ q ∈ m, keyLE q p := by
  intro m
  induction m with
  | nil => exact fun h _ => absurd rfl h
  | cons a t ih =>
    intro _ hs
    cases t with
    | nil =>
      refine ⟨a, rfl, List.mem_cons_self _ _, ?_⟩
      intro q hq
      rcases List.mem_cons.mp hq with h1 | h1
      · exact h1 ▸ le_refl a.1
      · exact absurd h1 (List.not_mem_nil q)
    | cons b t2 =>
      obtain ⟨p, hp1, hp2, hp3⟩ := ih (by simp) hs.of_cons
      refine ⟨p, ?_, List.mem_cons_of_mem a hp2, ?_⟩
      · rw [List.getLast?_cons_cons]
        exact hp1
      · intro q hq
        rcases List.mem_cons.mp hq with h1 | h1
        · exact h1 ▸ List.rel_of_sorted_cons hs p hp2
        · exact hp3 q h1

theorem latestValue_eq {ν : Type} (m : List (ℤ × ν)) (e : ℤ) (v : ν)
    (hmem : (e, v) ∈ m)
    (hmax : ∀ p ∈ m, p.1 ≤ e ∧ (p.1 = e → p.2 = v)) :
    latestValue m = some v := by
  unfold latestValue
  have hperm := List.perm_insertionSort keyLE m
  have hsorted := List.sorted_insertionSort keyLE m
  have hne : List.insertionSort keyLE m ≠ [] := by
    intro h
    rw [h] at hperm
    exact absurd (hperm.symm.eq_nil) (by rintro rfl; exact List.not_mem_nil _ hmem)
  obtain ⟨p, hp1, hp2, hp3⟩ := sorted_getLast _ hne hsorted
  rw [hp1]
  have hpm : p ∈ m := hperm.mem_iff.mp hp2
  have h1 : p.1 ≤ e := (hmax p hpm).1
  have h2 : e ≤ p.1 := hp3 (e, v) (hperm.mem_iff.mpr hmem)
  have hv : p.2 = v := (hmax p hpm).2 (le_antisymm h1 h2)
  show some p.2 = some v
  rw [hv]

/-- C7: a cached statistics entry qualifies exactly when it matches the
chat, delta and metric and its window contains the date strictly on both
ends, and when several windows qualify the entry with the latest
`window_end` is returned (the lookup is a cache hit: no refill). -/
theorem c7_statistics_window_lookup (ν : Type) (query : ℤ → List (StatKey × ν))
    (cache : List (StatKey × ν)) (date chat_id delta : ℤ) (metric : String)
    (k : StatKey) (v : ν)
    (hmem : (k, v) ∈ cache)
    (hmatch : statMatches k date chat_id delta metric = true)
    (hmax : ∀ k2 v2, (k2, v2) ∈ cache → statMatches k2 date chat_id delta metric = true →
      k2 ≠ k → k2.date_to < k.date_to)
    (huniq : ∀ v2, (k, v2) ∈ cache → v2 = v) :
    (∀ k2 : StatKey, statMatches k2 date chat_id delta metric = true ↔
      (k2.date_from < date ∧ date < k2.date_to ∧ k2.chat_id = chat_id ∧
        k2.delta = delta ∧ k2.metric = metric)) ∧
    getStatistics query cache date chat_id delta metric = (some v, cache, 0) := by
  constructor
  · intro k2
    simp [statMatches, and_assoc]
  · have hbound : ∀ p ∈ rowsForDate cache date chat_id delta metric,
        (p : ℤ × ν).1 ≤ k.date_to ∧ (p.1 = k.date_to → p.2 = v) := by
      intro p hp
      obtain ⟨k3, hk3, hm3, he3⟩ :=
        (statRowsAux_source date chat_id delta metric cache [] p.1 p.2 hp).resolve_left
          (List.not_mem_nil _)
      by_cases hek : k3 = k
      · subst hek
        exact ⟨le_of_eq he3.symm, fun _ => huniq p.2 hk3⟩
      · have hlt : k3.date_to < k.date_to := hmax k3 p.2 hk3 hm3 hek
        exact ⟨le_of_lt (he3 ▸ hlt), fun he => absurd (he ▸ he3 ▸ hlt) (lt_irrefl _)⟩
    have hrow : (k.date_to, v) ∈ rowsForDate cache date chat_id delta metric := by
      refine statRowsAux_insert date chat_id delta metric cache [] hmem hmatch ?_
      intro k2 v2 hk2 hm2 he2
      by_cases hek : k2 = k
      · exact huniq v2 (hek ▸ hk2)
      · exact absurd (he2 ▸ hmax k2 v2 hk2 hm2 hek) (lt_irrefl _)
    have hlatest : getLatestStatistics cache date chat_id delta metric = some v :=
      latestValue_eq _ k.date_to v hrow (fun p hp => hbound p hp)
    unfold getStatistics
    rw [hlatest]

/-- Witness for C7: two qualifying windows `(0, 10)` and `(0, 20)` for
date 5; the later-ending window's value is returned without a refill. -/
theorem c7_statistics_window_lookup_witness :
    ((⟨0, 20, 7, 300, "views"⟩, (2 : ℚ)) ∈
      [((⟨0, 10, 7, 300, "views"⟩ : StatKey), (1 : ℚ)),
       (⟨0, 20, 7, 300, "views"⟩, 2)]) ∧
    statMatches ⟨0, 20, 7, 300, "views"⟩ 5 7 300 "views" = true ∧
    getStatistics (fun _ => [])
      [((⟨0, 10, 7, 300, "views"⟩ : StatKey), (1 : ℚ)),
       (⟨0, 20, 7, 300, "views"⟩, 2)] 5 7 300 "views" =
      (some 2,
        [((⟨0, 10, 7, 300, "views"⟩ : StatKey), (1 : ℚ)),
         (⟨0, 20, 7, 300, "views"⟩, 2)], 0) := by
  refine ⟨by decide, by decide, ?_⟩
  refine (c7_statistics_window_lookup ℚ (fun _ => [])
    [((⟨0, 10, 7, 300, "views"⟩ : StatKey), (1 : ℚ)), (⟨0, 20, 7, 300, "views"⟩, 2)]
    5 7 300 "views" ⟨0, 20, 7, 300, "views"⟩ 2 (by decide) (by decide) ?_ ?_).2
  · intro k2 v2 hk2 hm2 hne
    rcases List.mem_cons.mp hk2 with h1 | h1
    · cases h1
      decide
    · rcases List.mem_cons.mp h1 with h2 | h2
      · cases h2
        exact absurd rfl hne
      · exact absurd h2 (List.not_mem_nil _)
  · intro v2 hv2
    rcases List.mem_cons.mp hv2 with h1 | h1
    · have hcontra : (⟨0, 20, 7, 300, "views"⟩ : StatKey) = ⟨0, 10, 7, 300, "views"⟩ :=
        congrArg Prod.fst h1
      exact absurd hcontra (by decide)
    · rcases List.mem_cons.mp h1 with h2 | h2
      · exact congrArg Prod.snd h2
      · exact absurd h2 (List.not_mem_nil _)

end Cache

namespace Metrics

theorem exceptOkBind {ε α β : Type} (x : α) (f : α → Except ε β) :
    Bind.bind (Except.ok x) f = f x := rfl

theorem exceptPureEq {ε α : Type} (x : α) :
    (pure x : Except ε α) = Except.ok x := rfl

/-- C6: when the article's views are strictly below the source's
minimal-views threshold (read with default 0), the metric detector appends
no anomalies at all: `run` returns before the static-ratio and
predicted-views checks. -/
theorem c6_minimal_threshold_gate (getCoefficients : ℤ → Option Coefficients)
    (getPrediction : String → ℤ → ℤ → Option Prediction)
    (getStatistics : String → ℤ → ℤ → String → Option Statistics)
    (a : MetricArticle) (c : Coefficients)
    (hgc : getCoefficients (a.chat_id.getD 0) = some c)
    (hlt : a.views.getD 0 < c.minimal_views_threshold.getD 0) :
    runMetricDetector getCoefficients getPrediction getStatistics a = Except.ok [] := by
  have hthr : checkArticleMinimalThreshold getCoefficients a = false := by
    unfold checkArticleMinimalThreshold
    rw [hgc]
    simp [hlt]
  unfold runMetricDetector
  rw [hthr]
  split
  · rfl
  · simp

/-- Witness for C6: threshold 100, views 50, with ratios and a prediction
that would otherwise trigger. -/
theorem c6_minimal_threshold_gate_witness :
    ((fun _ : ℤ => some (⟨1/10, 1/10, some 100⟩ : Coefficients))
      ((⟨some 7, some 300, some "2024-01-01T00:00:00", some 50, some 30, some 10⟩ :
        MetricArticle).chat_id.getD 0) = some ⟨1/10, 1/10, some 100⟩) ∧
    ((⟨some 7, some 300, some "2024-01-01T00:00:00", some 50, some 30, some 10⟩ :
      MetricArticle).views.getD 0 <
      (Coefficients.mk (1/10) (1/10) (some 100)).minimal_views_threshold.getD 0) ∧
    runMetricDetector (fun _ => some ⟨1/10, 1/10, some 100⟩)
      (fun _ _ _ => some ⟨10, 20⟩) (fun _ _ _ _ => none)
      ⟨some 7, some 300, some "2024-01-01T00:00:00", some 50, some 30, some 10⟩ =
      Except.ok [] :=
  ⟨rfl, by norm_num,
    c6_minimal_threshold_gate (fun _ => some ⟨1/10, 1/10, some 100⟩)
      (fun _ _ _ => some ⟨10, 20⟩) (fun _ _ _ _ => none)
      ⟨some 7, some 300, some "2024-01-01T00:00:00", some 50, some 30, some 10⟩
      ⟨1/10, 1/10, some 100⟩ rfl (by norm_num)⟩

/-- C3 counterexample: an article with `views = 0` and every other
required field truthy is skipped by the required-fields truthiness check
(`all(article.get(key) ...)` is false because `0` is falsy), so `run`
returns no anomalies and no `ZeroDivisionError` — the division is never
reached, contradicting the claim that zero views are handled only via the
division raising with no guard before it. -/
theorem c3_zero_views_is_guarded :
    runMetricDetector (fun _ => some ⟨1/10, 1/10, none⟩) (fun _ _ _ => some ⟨10, 20⟩)
      (fun _ _ _ _ => none)
      ⟨some 7, some 300, some "2024-01-01T00:00:00", some 0, some 5, some 3⟩ =
      Except.ok [] ∧
    checkArticleFieldsMetric
      ⟨some 7, some 300, some "2024-01-01T00:00:00", some 0, some 5, some 3⟩ = false :=
  ⟨rfl, rfl⟩

/-- C3 amended: zero-views articles are skipped by the required-fields
truthiness check of `run` before the minimal-threshold and static-ratio
checks, so the division is never reached through `run`; the static-ratio
check itself has no zero-views guard and raises `ZeroDivisionError` when
invoked directly on zero views with coefficients present. -/
theorem c3_zero_views_skipped_before_division :
    (∀ (getCoefficients : ℤ → Option Coefficients)
        (getPrediction : String → ℤ → ℤ → Option Prediction)
        (getStatistics : String → ℤ → ℤ → String → Option Statistics)
        (a : MetricArticle), a.views = some 0 →
      runMetricDetector getCoefficients getPrediction getStatistics a = Except.ok [] ∧
      checkArticleFieldsMetric a = false) ∧
    (∀ (getCoefficients : ℤ → Option Coefficients) (a : MetricArticle) (c : Coefficients),
      getCoefficients (a.chat_id.getD 0) = some c → a.views.getD 0 = 0 →
      checkStaticMetrics getCoefficients a = Except.error "ZeroDivisionError") := by
  constructor
  · intro getCoefficients getPrediction getStatistics a hv
    have hfields : checkArticleFieldsMetric a = false := by
      unfold checkArticleFieldsMetric
      rw [hv]
      simp [truthyRat]
    refine ⟨?_, hfields⟩
    unfold runMetricDetector
    rw [hfields]
    simp
  · intro getCoefficients a c hgc hv
    unfold checkStaticMetrics
    rw [hgc]
    simp only [pyDiv, hv, if_pos]
    rfl

/-- Witness for C3 (amended) at the counterexample article. -/
theorem c3_zero_views_skipped_before_division_witness :
    ((⟨some 7, some 300, some "2024-01-01T00:00:00", some 0, some 5, some 3⟩ :
      MetricArticle).views = some 0 ∧
      runMetricDetector (fun _ => some ⟨1/10, 1/10, none⟩) (fun _ _ _ => some ⟨10, 20⟩)
        (fun _ _ _ _ => none)
        ⟨some 7, some 300, some "2024-01-01T00:00:00", some 0, some 5, some 3⟩ =
        Except.ok []) ∧
    checkStaticMetrics (fun _ => some ⟨1/10, 1/10, none⟩)
      ⟨some 7, some 300, some "2024-01-01T00:00:00", some 0, some 5, some 3⟩ =
      Except.error "ZeroDivisionError" :=
  ⟨⟨rfl,
    (c3_zero_views_skipped_before_division.1 (fun _ => some ⟨1/10, 1/10, none⟩)
      (fun _ _ _ => some ⟨10, 20⟩) (fun _ _ _ _ => none)
      ⟨some 7, some 300, some "2024-01-01T00:00:00", some 0, some 5, some 3⟩ rfl).1⟩,
    c3_zero_views_skipped_before_division.2 (fun _ => some ⟨1/10, 1/10, none⟩)
      ⟨some 7, some 300, some "2024-01-01T00:00:00", some 0, some 5, some 3⟩
      ⟨1/10, 1/10, none⟩ rfl rfl⟩

/-- C5 counterexample: with coefficient `0.1` and observed ratio `0.2`
(views 10, forwards 2) the emitted anomaly's score is
`1 / (1 + exp((0.1 - 2) * 10)) = 1 / (1 + exp(-19))`, because the code's
`deviation` is `metric_value / expected_value` (the ratio divided by the
coefficient), not the observed ratio itself; the claimed formula
`1 / (1 + exp((expected - observed_ratio) * 10)) = 1 / (1 + exp(-1))`
yields a different value. -/
theorem c5_score_formula_counterexample :
    checkStaticMetrics (fun _ => some ⟨1/10, 1, none⟩)
      ⟨some 7, some 300, some "d", some 10, some 2, some 1⟩ =
      Except.ok [⟨"forwards_by_views", 1/5, 1/10, 1 / (1 + Real.exp (-19)), 100⟩] ∧
    (1 : ℝ) / (1 + Real.exp (-19)) ≠
      1 / (1 + Real.exp ((1/10 - 1/5) * 10)) := by
  constructor
  · unfold checkStaticMetrics scoreStaticMetrics pyDiv
    norm_num [exceptOkBind, exceptPureEq]
  · have h1 : ((1:ℝ)/10 - 1/5) * 10 = -1 := by norm_num
    rw [h1]
    have h2 : Real.exp (-19) < Real.exp (-1) := Real.exp_lt_exp.mpr (by norm_num)
    have h3 : (0:ℝ) < 1 + Real.exp (-19) := by positivity
    have h5 : (1:ℝ) / (1 + Real.exp (-1)) < 1 / (1 + Real.exp (-19)) :=
      one_div_lt_one_div_of_lt h3 (by linarith)
    exact ne_of_gt h5

/-- C5 amended: a ratio anomaly is emitted exactly when the observed ratio
strictly exceeds the source's coefficient, with
`score = 1 / (1 + exp((expected_value - deviation) * 10))` where
`deviation = observed_ratio / expected_value` (the code divides the
observed ratio by the coefficient before scoring). -/
theorem c5_static_ratio_amended (getCoefficients : ℤ → Option Coefficients)
    (a : MetricArticle) (c : Coefficients)
    (hgc : getCoefficients (a.chat_id.getD 0) = some c)
    (hv : ¬ (a.views.getD 0 = 0))
    (hf : ¬ (c.forwards_by_views = 0))
    (hr : ¬ (c.reaction_count_by_views = 0)) :
    checkStaticMetrics getCoefficients a =
      Except.ok
        ((if a.forwards.getD 0 / a.views.getD 0 > c.forwards_by_views then
            [⟨"forwards_by_views", a.forwards.getD 0 / a.views.getD 0, c.forwards_by_views,
              1 / (1 + Real.exp (((c.forwards_by_views : ℝ) -
                ((a.forwards.getD 0 / a.views.getD 0 / c.forwards_by_views : ℚ) : ℝ)) * 10)),
              100⟩]
          else []) ++
         (if a.reaction_count.getD 0 / a.views.getD 0 > c.reaction_count_by_views then
            [⟨"reaction_count_by_views", a.reaction_count.getD 0 / a.views.getD 0,
              c.reaction_count_by_views,
              1 / (1 + Real.exp (((c.reaction_count_by_views : ℝ) -
                ((a.reaction_count.getD 0 / a.views.getD 0 / c.reaction_count_by_views : ℚ) : ℝ)) * 10)),
              100⟩]
          else [])) := by
  unfold checkStaticMetrics scoreStaticMetrics pyDiv
  rw [hgc]
  simp only [if_neg hv, if_neg hf, if_neg hr, exceptOkBind, exceptPureEq]
  split_ifs with h1 h2 h2 <;>
    simp only [exceptOkBind, exceptPureEq, neg_add_eq_sub]

/-- Witness for C5 (amended): coefficient `0.1`, observed ratio `0.2`
emits the forwards anomaly; observed ratio `0.05` emits nothing. -/
theorem c5_static_ratio_amended_witness :
    ((fun _ : ℤ => some (⟨1/10, 1, none⟩ : Coefficients)) 7 = some ⟨1/10, 1, none⟩ ∧
      ¬ ((⟨some 7, some 300, some "d", some 10, some 2, some 1⟩ :
        MetricArticle).views.getD 0 = 0) ∧
      checkStaticMetrics (fun _ => some ⟨1/10, 1, none⟩)
        ⟨some 7, some 300, some "d", some 10, some 2, some 1⟩ =
        Except.ok
          ((if (2 : ℚ)/10 > (1 : ℚ)/10 then
              [⟨"forwards_by_views", (2 : ℚ)/10, 1/10,
                1 / (1 + Real.exp ((((1 : ℚ)/10 : ℝ) -
                  (((2 : ℚ)/10 / ((1 : ℚ)/10) : ℚ) : ℝ)) * 10)), 100⟩]
            else []) ++
           (if (1 : ℚ)/10 > (1 : ℚ) then
              [⟨"reaction_count_by_views", (1 : ℚ)/10, 1,
                1 / (1 + Real.exp ((((1 : ℚ) : ℝ) -
                  (((1 : ℚ)/10 / (1 : ℚ) : ℚ) : ℝ)) * 10)), 100⟩]
            else []))) ∧
    checkStaticMetrics (fun _ => some ⟨1/10, 1, none⟩)
      ⟨some 7, some 300, some "d", some 100, some 5, some 1⟩ = Except.ok [] := by
  refine ⟨⟨rfl, by norm_num, ?_⟩, ?_⟩
  · have h := c5_static_ratio_amended (fun _ => some ⟨1/10, 1, none⟩)
      ⟨some 7, some 300, some "d", some 10, some 2, some 1⟩ ⟨1/10, 1, none⟩
      rfl (by norm_num) (by norm_num) (by norm_num)
    simpa using h
  · have h := c5_static_ratio_amended (fun _ => some ⟨1/10, 1, none⟩)
      ⟨some 7, some 300, some "d", some 100, some 5, some 1⟩ ⟨1/10, 1, none⟩
      rfl (by norm_num) (by norm_num) (by norm_num)
    rw [h]
    norm_num

end Metrics
